import Mathlib

/-!
Verification of the Bangla plagiarism checker frontend service layer.

The definitions below are a shallow embedding of the module that exports
apiService together with its text utilities (preprocessBanglaText,
extractSentences) and of the frontend result types.  Text is modelled as a
list of characters.  Loosely typed JSON fields coming back from the backend
are modelled as Option values; the JavaScript idiom (a || b), which falls
back to b when a is absent, 0 or the empty string, is modelled by the jor
functions below.  The call to String.prototype.normalize with argument NFC
is an external Unicode capability; it is modelled as an explicit function
argument nfc of preprocessBanglaText, so that theorems can state exactly
which properties of NFC they rely on.
-/

namespace Plag

/-- Membership in the JavaScript regex character class for whitespace,
the class written backslash-s, which also equals the character set removed
by String.prototype.trim. -/
def isWs (c : Char) : Bool :=
  c == ' ' || c == '\t' || c == '\n' || c == '\r' || c == '\x0b' || c == '\x0c' ||
  c == ' ' || c == ' ' ||
  (decide (0x2000 ≤ c.toNat) && decide (c.toNat ≤ 0x200A)) ||
  c == ' ' || c == ' ' || c == ' ' || c == ' ' ||
  c == '﻿' || c == '　'

/-- Bangla sentence terminators used by extractSentences: the danda, the
exclamation mark and the question mark. -/
def isTerm (c : Char) : Bool :=
  c == '।' || c == '!' || c == '?'

/-- Drop leading whitespace, the first half of String.prototype.trim. -/
def trimStart (t : List Char) : List Char := t.dropWhile isWs

/-- Drop trailing whitespace, the second half of String.prototype.trim. -/
def trimEnd (t : List Char) : List Char := (t.reverse.dropWhile isWs).reverse

/-- String.prototype.trim: drop leading and trailing whitespace. -/
def trim (t : List Char) : List Char := trimEnd (trimStart t)

/-- Worker for the replacement of every maximal whitespace run by a single
space, the JavaScript call text.replace over the global pattern of one or
more whitespace characters.  The flag records whether the previous
character was whitespace, i.e. whether a run is in progress. -/
def collapseGo : Bool → List Char → List Char
  | _, [] => []
  | prev, c :: cs =>
    if isWs c then
      if prev then collapseGo true cs
      else ' ' :: collapseGo true cs
    else c :: collapseGo false cs

/-- The whitespace collapsing step of preprocessBanglaText. -/
def collapseWs (t : List Char) : List Char := collapseGo false t

/-- Removal of every zero-width non-joiner, U+200C. -/
def removeZWNJ (t : List Char) : List Char := t.filter (fun c => c != '‌')

/-- Removal of every zero-width joiner, U+200D. -/
def removeZWJ (t : List Char) : List Char := t.filter (fun c => c != '‍')

/-- preprocessBanglaText from the source: collapse whitespace runs to a
single space, remove U+200C, remove U+200D, apply Unicode NFC
normalization (the external capability nfc), then trim.  The steps are in
the exact order of the source. -/
def preprocessBanglaText (nfc : List Char → List Char) (text : List Char) : List Char :=
  trim (nfc (removeZWJ (removeZWNJ (collapseWs text))))

/-- Worker for String.prototype.split over a regex matching one or more
occurrences of a character class p: fields are separated by maximal
nonempty runs of characters satisfying p.  The flag records whether the
previous character belonged to a separator run; acc holds the current
field reversed. -/
def splitRunsGo (p : Char → Bool) : Bool → List Char → List Char → List (List Char)
  | _, [], acc => [acc.reverse]
  | prev, c :: cs, acc =>
    if p c then
      if prev then splitRunsGo p true cs acc
      else acc.reverse :: splitRunsGo p true cs []
    else splitRunsGo p false cs (c :: acc)

/-- extractSentences from the source: split on runs of Bangla sentence
terminators, keep the fragments that are nonempty after trimming, and
return each kept fragment trimmed. -/
def extractSentences (text : List Char) : List (List Char) :=
  ((splitRunsGo isTerm false text []).filter
    (fun s => decide (0 < (trim s).length))).map trim

/-- The word count computed inline in checkPlagiarism: trim the text, then
split it on runs of whitespace and count the resulting fields. -/
def jsWordCount (text : List Char) : Nat :=
  (splitRunsGo isWs false (trim text) []).length

/-- JavaScript (a || d) for a possibly absent rational: absent and 0 are
falsy and give the default. -/
def jorQ (o : Option ℚ) (d : ℚ) : ℚ :=
  match o with
  | none => d
  | some v => if v = 0 then d else v

/-- JavaScript (a || d) for a possibly absent integer. -/
def jorZ (o : Option ℤ) (d : ℤ) : ℤ :=
  match o with
  | none => d
  | some v => if v = 0 then d else v

/-- JavaScript (a || d) for a possibly absent natural number. -/
def jorN (o : Option ℕ) (d : ℕ) : ℕ :=
  match o with
  | none => d
  | some v => if v = 0 then d else v

/-- JavaScript (a || d) for a possibly absent string: absent and the empty
string are falsy and give the default. -/
def jorS (o : Option String) (d : String) : String :=
  match o with
  | none => d
  | some s => if s = "" then d else s

/-- JavaScript comparison (a > c) where a may be absent: comparing an
absent value yields false. -/
def jgt (o : Option ℚ) (c : ℚ) : Bool :=
  match o with
  | none => false
  | some v => decide (c < v)

/-- The optional fields of PlagiarismCheckOptions from the frontend
types. -/
structure PlagiarismCheckOptions where
  threshold : Option ℚ
  checkParaphrase : Option Bool
  language : Option String
  deriving DecidableEq

/-- One match object of the backend JSON response; every field may be
absent. -/
structure RawMatch where
  similarity_score : Option ℚ
  source_title : Option String
  matched_text : Option String
  source_text : Option String
  start_position : Option ℤ
  end_position : Option ℤ
  match_type : Option String
  deriving DecidableEq

/-- The analysis object of the backend JSON response. -/
structure RawAnalysis where
  average_similarity : Option ℚ
  risk_level : Option String
  total_sentences : Option ℕ
  deriving DecidableEq

/-- The backend JSON response to the plagiarism check request; every field
may be absent. -/
structure RawResponse where
  success : Option Bool
  message : Option String
  overall_similarity : Option ℚ
  matchList : Option (List RawMatch)
  analysis : Option RawAnalysis
  processing_time : Option ℚ
  deriving DecidableEq

/-- PlagiarismMatch from the frontend types. -/
structure PlagiarismMatch where
  similarity : ℚ
  source : String
  sourceTitle : Option String
  matchedText : String
  originalText : String
  startIndex : ℤ
  endIndex : ℤ
  type : String
  deriving DecidableEq

/-- The analysis record inside PlagiarismResult from the frontend types. -/
structure ResultAnalysis where
  totalMatches : ℕ
  exactMatches : ℕ
  paraphraseMatches : ℕ
  avgSimilarity : ℚ
  riskLevel : String
  deriving DecidableEq

/-- PlagiarismResult from the frontend types. -/
structure PlagiarismResult where
  overallScore : ℚ
  matchList : List PlagiarismMatch
  analysis : ResultAnalysis
  processedText : List Char
  wordCount : ℕ
  sentenceCount : ℕ
  processingTime : ℚ
  deriving DecidableEq

/-- The request body built by checkPlagiarism. -/
structure RequestData where
  text : List Char
  threshold : ℚ
  check_paraphrase : Bool
  language : String
  deriving DecidableEq

/-- The requestData object built at the start of checkPlagiarism: the
threshold defaults to 0.7 for an absent or zero value, check_paraphrase is
the strict comparison of checkParaphrase against literal false, and the
language defaults to bangla. -/
def buildRequest (text : List Char) (options : PlagiarismCheckOptions) : RequestData :=
  { text := text
    threshold := jorQ options.threshold (7/10)
    check_paraphrase := !(options.checkParaphrase == some false)
    language := jorS options.language "bangla" }

/-- The per-match translation written inline in checkPlagiarism: defaults
for every absent backend field, and a match type of exact exactly when the
backend match_type is the literal string exact, paraphrase otherwise. -/
def transformMatch (m : RawMatch) : PlagiarismMatch :=
  { similarity := jorQ m.similarity_score 0
    source := jorS m.source_title "Unknown Source"
    sourceTitle := m.source_title
    matchedText := jorS m.matched_text ""
    originalText := jorS m.source_text ""
    startIndex := jorZ m.start_position 0
    endIndex := jorZ m.end_position 0
    type := if m.match_type == some "exact" then "exact" else "paraphrase" }

/-- The derived risk level of checkPlagiarism when the backend supplies
none: strict comparisons of overall_similarity against 0.7 and 0.3. -/
def derivedRisk (o : Option ℚ) : String :=
  if jgt o (7/10) then "high" else if jgt o (3/10) then "medium" else "low"

/-- The transformedResult object of checkPlagiarism: the backend response
reshaped into a PlagiarismResult, field by field as in the source. -/
def transformResult (text : List Char) (rawData : RawResponse) : PlagiarismResult :=
  { overallScore := jorQ rawData.overall_similarity 0 * 100
    matchList := (rawData.matchList.getD []).map transformMatch
    analysis :=
      { totalMatches := jorN (rawData.matchList.map List.length) 0
        exactMatches := ((rawData.matchList.getD []).filter
          (fun m => m.match_type == some "exact")).length
        paraphraseMatches := ((rawData.matchList.getD []).filter
          (fun m => !(m.match_type == some "exact"))).length
        avgSimilarity := jorQ (rawData.analysis.bind RawAnalysis.average_similarity)
          (jorQ rawData.overall_similarity 0)
        riskLevel := jorS (rawData.analysis.bind RawAnalysis.risk_level)
          (derivedRisk rawData.overall_similarity) }
    processedText := text
    wordCount := jsWordCount text
    sentenceCount := jorN (rawData.analysis.bind RawAnalysis.total_sentences) 1
    processingTime := jorQ rawData.processing_time 0 }

/-- The value-level behavior of apiService.checkPlagiarism once the
backend has answered: the function throws when a success flag is present
and false, and otherwise returns the reshaped result.  The request body it
sent is buildRequest text options; no validation of text or options
happens anywhere on the path. -/
def checkPlagiarism (text : List Char) (options : PlagiarismCheckOptions)
    (response : RawResponse) : Except String PlagiarismResult :=
  if response.success == some false then
    Except.error (jorS response.message "প্ল্যাজিয়ারিজম চেক ব্যর্থ")
  else
    Except.ok (transformResult text response)

/-- Mean similarity across kept matches.  This definition follows the
words of the spec, which says analysis.avgSimilarity is the mean
similarity across kept matches only; it exists to be compared with the
value the code actually produces. -/
def specAvgSimilarity (ms : List PlagiarismMatch) : ℚ :=
  (ms.map PlagiarismMatch.similarity).sum / ms.length

/-- Adjacency constraint inside a collapsed text: of two neighboring
characters at least one is not whitespace. -/
def wsOk (a b : Char) : Prop := isWs a = false ∨ isWs b = false

/-- Whitespace structure invariant: every whitespace character is a plain
space and no two adjacent characters are both whitespace.  This is the
shape of the output of collapseWs. -/
def Collapsed (t : List Char) : Prop :=
  (∀ c ∈ t, isWs c = true → c = ' ') ∧ List.Chain' wsOk t

/-- Fixed point of the three rewriting steps that precede NFC in
preprocessBanglaText: whitespace already collapsed and no zero-width
joiner or non-joiner present. -/
def Clean (t : List Char) : Prop :=
  collapseWs t = t ∧ removeZWNJ t = t ∧ removeZWJ t = t

/-- A backend response whose only content is an overall_similarity of one
half. -/
def respHalf : RawResponse := ⟨none, none, some (1/2), none, none, none⟩

/-- A backend response with overall_similarity exactly 0.7 and no
analysis object. -/
def respBoundary : RawResponse := ⟨none, none, some (7/10), none, none, none⟩

/-- A backend response with overall_similarity one fifth and no analysis
object. -/
def respLow : RawResponse := ⟨none, none, some (1/5), none, none, none⟩

/-- A backend response with every field absent. -/
def respEmpty : RawResponse := ⟨none, none, none, none, none, none⟩

/-- Options carrying a threshold of 5, far outside the unit interval. -/
def optsThresholdFive : PlagiarismCheckOptions := ⟨some 5, none, none⟩

/-- Options with a zero threshold and checkParaphrase true. -/
def optsZeroThreshold : PlagiarismCheckOptions := ⟨some 0, some true, none⟩

/-- A backend match of similarity 0.9 and type exact, with no offsets. -/
def exactMatch009 : RawMatch := ⟨some (9/10), none, none, none, none, none, some "exact"⟩

/-- A backend response with a single exact match of similarity 0.9, an
overall_similarity of two fifths, and no analysis object. -/
def respOneMatch : RawResponse := ⟨none, none, some (2/5), some [exactMatch009], none, none⟩

/-- A backend match with no position fields at all. -/
def matchNoPos : RawMatch := ⟨some (1/2), none, none, none, none, none, none⟩

/-- A backend response with a single match that has no position fields. -/
def respNoPos : RawResponse := ⟨none, none, none, some [matchNoPos], none, none⟩

/-- A backend match with positions 0 and 1, valid inside a one-character
text. -/
def matchPos01 : RawMatch := ⟨some (1/2), none, none, none, some 0, some 1, some "exact"⟩

/-- A backend response with the single match matchPos01. -/
def respPos01 : RawResponse := ⟨none, none, none, some [matchPos01], none, none⟩

/-! Helper lemmas about the JavaScript default operators. -/

theorem jorQ_some_zero (v : ℚ) : jorQ (some v) 0 = v := by
  by_cases h : v = 0 <;> simp [jorQ, h]

theorem jorZ_some_zero (v : ℤ) : jorZ (some v) 0 = v := by
  by_cases h : v = 0 <;> simp [jorZ, h]

theorem jgt_iff (o : Option ℚ) (c : ℚ) (hc : 0 ≤ c) :
    jgt o c = true ↔ c < jorQ o 0 := by
  cases o with
  | none => simpa [jgt, jorQ] using not_lt.mpr hc
  | some v =>
    by_cases hv : v = 0
    · simpa [jgt, jorQ, hv] using not_lt.mpr hc
    · simp [jgt, jorQ, hv]

/-- The derived risk level uses strict comparisons: high above 0.7, medium
above 0.3 and at most 0.7, low otherwise, measured on the backend value
with 0 substituted for an absent one. -/
theorem derivedRisk_spec (o : Option ℚ) :
    (derivedRisk o = "high" ↔ 7/10 < jorQ o 0) ∧
    (derivedRisk o = "medium" ↔ (3/10 < jorQ o 0 ∧ jorQ o 0 ≤ 7/10)) ∧
    (derivedRisk o = "low" ↔ jorQ o 0 ≤ 3/10) := by
  have h7 := jgt_iff o (7/10) (by norm_num)
  have h3 := jgt_iff o (3/10) (by norm_num)
  unfold derivedRisk
  by_cases c7 : jgt o (7/10) = true
  · have hv7 : 7/10 < jorQ o 0 := h7.mp c7
    simp only [c7, if_true]
    refine ⟨by simpa using hv7, ?_, ?_⟩
    · constructor
      · intro h; exact absurd h (by decide)
      · rintro ⟨-, hle⟩; exact absurd hv7 (not_lt.mpr hle)
    · constructor
      · intro h; exact absurd h (by decide)
      · intro hle; linarith
  · have hv7 : ¬ 7/10 < jorQ o 0 := fun h => c7 (h7.mpr h)
    by_cases c3 : jgt o (3/10) = true
    · have hv3 : 3/10 < jorQ o 0 := h3.mp c3
      simp only [c7, c3, if_false, if_true, Bool.false_eq_true]
      refine ⟨?_, ?_, ?_⟩
      · constructor
        · intro h; exact absurd h (by decide)
        · intro h; exact absurd h hv7
      · simp [hv3, not_lt.mp hv7]
      · constructor
        · intro h; exact absurd h (by decide)
        · intro hle; linarith
    · have hv3 : ¬ 3/10 < jorQ o 0 := fun h => c3 (h3.mpr h)
      simp only [c7, c3, if_false, Bool.false_eq_true]
      refine ⟨?_, ?_, ?_⟩
      · constructor
        · intro h; exact absurd h (by decide)
        · intro h; linarith [not_lt.mp hv7]
      · constructor
        · intro h; exact absurd h (by decide)
        · rintro ⟨h, -⟩; exact absurd h hv3
      · simp [not_lt.mp hv3]

/-- The two complementary filters of a list partition its length. -/
theorem length_filter_partition (l : List RawMatch) (q : RawMatch → Bool) :
    (l.filter q).length + (l.filter (fun a => !(q a))).length = l.length := by
  induction l with
  | nil => rfl
  | cons a l ih => cases hq : q a <;> simp [List.filter_cons, hq] <;> omega

/-- totalMatches as computed from the optional backend list equals the
length of the defaulted list. -/
theorem jorN_length (o : Option (List RawMatch)) :
    jorN (o.map List.length) 0 = (o.getD []).length := by
  cases o with
  | none => rfl
  | some ms => by_cases h : ms.length = 0 <;> simp [jorN, h]

/-- C1 counterexample: the claim says overallScore always lies in the unit
interval, but at a backend overall_similarity of one half the code
produces 50, because it multiplies by 100 to make a percentage. -/
theorem C1_counterexample :
    ¬ (transformResult [] respHalf).overallScore ≤ 1 := by
  have h : (transformResult [] respHalf).overallScore =
      jorQ (some (1/2)) 0 * 100 := rfl
  rw [h, jorQ_some_zero]
  norm_num

/-- C1 (amended): overallScore equals the backend overall_similarity times
100, so it lies between 0 and 100 whenever the backend value lies in the
unit interval, and a zero or absent backend similarity yields an
overallScore of exactly 0. -/
theorem C1_theorem (text : List Char) (resp : RawResponse)
    (h : ∀ s, resp.overall_similarity = some s → 0 ≤ s ∧ s ≤ 1) :
    (0 ≤ (transformResult text resp).overallScore ∧
      (transformResult text resp).overallScore ≤ 100) ∧
    ((resp.overall_similarity = none ∨ resp.overall_similarity = some 0) →
      (transformResult text resp).overallScore = 0) := by
  constructor
  · cases ho : resp.overall_similarity with
    | none => simp [transformResult, jorQ, ho]
    | some v =>
      obtain ⟨h0, h1⟩ := h v ho
      by_cases hv : v = 0
      · simp [transformResult, jorQ, ho, hv]
      · simp only [transformResult, jorQ, ho, if_neg hv]
        constructor
        · exact mul_nonneg h0 (by norm_num)
        · linarith
  · rintro (ho | ho) <;> simp [transformResult, jorQ, ho]

/-- C1 witness at the concrete response with overall_similarity one
half. -/
theorem C1_witness :
    (0 ≤ (transformResult [] respHalf).overallScore ∧
      (transformResult [] respHalf).overallScore ≤ 100) ∧
    ((respHalf.overall_similarity = none ∨ respHalf.overall_similarity = some 0) →
      (transformResult [] respHalf).overallScore = 0) :=
  C1_theorem [] respHalf (by
    intro s hs
    rw [show respHalf.overall_similarity = some (1/2) from rfl] at hs
    injection hs with h2
    subst h2
    norm_num)

/-- C2 counterexample: at a backend overall_similarity of exactly 0.7 with
no backend risk level, the claim with its inclusive boundary requires
high, but the code compares with strict greater-than and yields medium. -/
theorem C2_counterexample :
    (transformResult [] respBoundary).analysis.riskLevel = "medium" := by
  have h : (transformResult [] respBoundary).analysis.riskLevel =
      derivedRisk (some (7/10)) := rfl
  have h7 : jgt (some ((7:ℚ)/10)) (7/10) = false := by simp [jgt]
  have h3 : jgt (some ((7:ℚ)/10)) (3/10) = true := by
    simp only [jgt, decide_eq_true_eq]
    norm_num
  rw [h]
  unfold derivedRisk
  rw [h7, h3]
  simp

/-- C2 (amended): when the backend supplies no risk level of its own, the
derived riskLevel is high exactly when the overall similarity is strictly
greater than 0.7, medium exactly when it is strictly greater than 0.3 and
at most 0.7, and low exactly when it is at most 0.3: the boundaries are
exclusive, not inclusive. -/
theorem C2_theorem (text : List Char) (resp : RawResponse)
    (h : resp.analysis.bind RawAnalysis.risk_level = none ∨
        resp.analysis.bind RawAnalysis.risk_level = some "") :
    ((transformResult text resp).analysis.riskLevel = "high" ↔
      7/10 < jorQ resp.overall_similarity 0) ∧
    ((transformResult text resp).analysis.riskLevel = "medium" ↔
      (3/10 < jorQ resp.overall_similarity 0 ∧
        jorQ resp.overall_similarity 0 ≤ 7/10)) ∧
    ((transformResult text resp).analysis.riskLevel = "low" ↔
      jorQ resp.overall_similarity 0 ≤ 3/10) := by
  have hrl : (transformResult text resp).analysis.riskLevel =
      derivedRisk resp.overall_similarity := by
    rcases h with h | h <;> simp [transformResult, jorS, h]
  rw [hrl]
  exact derivedRisk_spec resp.overall_similarity

/-- C2 witness at the concrete response with overall_similarity one
fifth, which the exclusive thresholds classify as low. -/
theorem C2_witness :
    (transformResult [] respLow).analysis.riskLevel = "low" :=
  ((C2_theorem [] respLow (Or.inl rfl)).2.2).mpr (by
    rw [show respLow.overall_similarity = some (1/5) from rfl, jorQ_some_zero]
    norm_num)

/-- C3 counterexample: with empty text and a threshold of 5, no
validation error occurs: the built request carries the empty text and
threshold 5, and with a backend reply that has no failure flag the call
returns a reshaped result. -/
theorem C3_counterexample :
    checkPlagiarism [] optsThresholdFive respEmpty =
      Except.ok (transformResult [] respEmpty) ∧
    (buildRequest [] optsThresholdFive).threshold = 5 ∧
    (buildRequest [] optsThresholdFive).text = [] := by
  refine ⟨rfl, by decide, rfl⟩

/-- C3 (amended): checkPlagiarism performs no request validation at all:
for every text, every options value and every backend response whose
success flag is not literally false, the call returns the reshaped result;
the request body it sends is buildRequest text options whatever the text
and threshold are. -/
theorem C3_theorem (text : List Char) (opts : PlagiarismCheckOptions)
    (resp : RawResponse) (h : resp.success ≠ some false) :
    checkPlagiarism text opts resp = Except.ok (transformResult text resp) := by
  unfold checkPlagiarism
  rw [if_neg]
  simpa using h

/-- C3 witness at empty text, out-of-range threshold and a reply without
failure flag. -/
theorem C3_witness :
    checkPlagiarism ['x'] optsThresholdFive respHalf =
      Except.ok (transformResult ['x'] respHalf) :=
  C3_theorem ['x'] optsThresholdFive respHalf (by decide)

/-- C4 counterexample: for a response with one kept match of similarity
0.9 and no backend analysis object, avgSimilarity is 0.4, the backend
overall similarity, and not the mean similarity 0.9 over kept matches. -/
theorem C4_counterexample :
    (transformResult [] respOneMatch).analysis.avgSimilarity ≠
      specAvgSimilarity (transformResult [] respOneMatch).matchList := by
  have h1 : (transformResult [] respOneMatch).analysis.avgSimilarity =
      jorQ (some (2/5)) 0 := rfl
  have h2 : (transformResult [] respOneMatch).matchList =
      [transformMatch exactMatch009] := rfl
  have h4 : (transformMatch exactMatch009).similarity = jorQ (some (9/10)) 0 := rfl
  rw [h1, h2, jorQ_some_zero]
  simp only [specAvgSimilarity, List.map_cons, List.map_nil, List.sum_cons,
    List.sum_nil, List.length_singleton, h4, jorQ_some_zero]
  norm_num

/-- C4 (amended): when the backend analysis omits average_similarity, or
reports it as zero, avgSimilarity falls back to the very overall
similarity value that drives overallScore, so the two are conflated:
avgSimilarity times 100 equals overallScore.  The frontend never computes
the mean over kept matches. -/
theorem C4_theorem (text : List Char) (resp : RawResponse)
    (h : resp.analysis.bind RawAnalysis.average_similarity = none ∨
        resp.analysis.bind RawAnalysis.average_similarity = some 0) :
    (transformResult text resp).analysis.avgSimilarity * 100 =
      (transformResult text resp).overallScore := by
  rcases h with h | h <;> simp [transformResult, jorQ, h]

/-- C4 witness at the concrete one-match response without analysis
object. -/
theorem C4_witness :
    (transformResult [] respOneMatch).analysis.avgSimilarity * 100 =
      (transformResult [] respOneMatch).overallScore :=
  C4_theorem [] respOneMatch (Or.inl rfl)

/-- C6 counterexample: when the backend omits start_position and
end_position, both indices default to 0, so the single transformed match
violates the strict bound startIndex < endIndex. -/
theorem C6_counterexample :
    ((transformResult ['a'] respNoPos).matchList.map
      (fun m => decide (m.startIndex < m.endIndex))) = [false] := by decide

/-- C6 (amended): the frontend copies backend positions verbatim,
substituting 0 for an absent value, and validates nothing, so offset
validity holds exactly when the backend already supplies in-range
positions; with omitted positions a match gets startIndex = endIndex = 0,
violating the strict ordering of the claim. -/
theorem C6_theorem (text : List Char) (resp : RawResponse)
    (h : ∀ m ∈ resp.matchList.getD [], ∃ s e, m.start_position = some s ∧
        m.end_position = some e ∧ 0 ≤ s ∧ s < e ∧ e ≤ (text.length : ℤ)) :
    ∀ mm ∈ (transformResult text resp).matchList,
      0 ≤ mm.startIndex ∧ mm.startIndex < mm.endIndex ∧
        mm.endIndex ≤ (text.length : ℤ) := by
  intro mm hmm
  simp only [transformResult] at hmm
  rcases List.mem_map.mp hmm with ⟨m, hm, rfl⟩
  obtain ⟨s, e, hs, he, h0, hse, hel⟩ := h m hm
  simp only [transformMatch, hs, he, jorZ_some_zero]
  exact ⟨h0, hse, hel⟩

/-- C6 witness at a backend match with explicit valid positions 0 and 1
inside a one-character text. -/
theorem C6_witness :
    0 ≤ (transformMatch matchPos01).startIndex ∧
    (transformMatch matchPos01).startIndex < (transformMatch matchPos01).endIndex ∧
    (transformMatch matchPos01).endIndex ≤ ((['a'] : List Char).length : ℤ) :=
  C6_theorem ['a'] respPos01
    (by
      intro m hm
      have hm01 : m = matchPos01 := by simpa [respPos01] using hm
      subst hm01
      exact ⟨0, 1, rfl, rfl, by decide, by decide, by decide⟩)
    (transformMatch matchPos01)
    (by simp [transformResult, respPos01])

/-- C8: the analysis counters partition the match list: exact plus
paraphrase match counts equal the total, the total equals the length of
the transformed match list, and every transformed match has type exact or
paraphrase, nothing else. -/
theorem C8_theorem (text : List Char) (resp : RawResponse) :
    ((transformResult text resp).analysis.exactMatches +
        (transformResult text resp).analysis.paraphraseMatches =
      (transformResult text resp).analysis.totalMatches) ∧
    ((transformResult text resp).analysis.totalMatches =
      (transformResult text resp).matchList.length) ∧
    ∀ mm ∈ (transformResult text resp).matchList,
      mm.type = "exact" ∨ mm.type = "paraphrase" := by
  refine ⟨?_, ?_, ?_⟩
  · simp only [transformResult, jorN_length]
    exact length_filter_partition (resp.matchList.getD [])
      (fun m => m.match_type == some "exact")
  · simp [transformResult, jorN_length]
  · intro mm hmm
    simp only [transformResult] at hmm
    rcases List.mem_map.mp hmm with ⟨m, hm, rfl⟩
    by_cases h : (m.match_type == some "exact") = true <;>
      simp [transformMatch, h]

/-- C8 witness at the concrete one-match response. -/
theorem C8_witness :
    ((transformResult [] respOneMatch).analysis.exactMatches +
        (transformResult [] respOneMatch).analysis.paraphraseMatches =
      (transformResult [] respOneMatch).analysis.totalMatches) ∧
    ((transformMatch exactMatch009).type = "exact" ∨
      (transformMatch exactMatch009).type = "paraphrase") :=
  ⟨(C8_theorem [] respOneMatch).1,
    (C8_theorem [] respOneMatch).2.2 (transformMatch exactMatch009)
      (by simp [transformResult, respOneMatch])⟩

/-- C9: a zero threshold is indistinguishable from an absent one: both
are falsy, so the request carries the default 0.7; and check_paraphrase
is true for every checkParaphrase value other than the literal false. -/
theorem C9_theorem (text : List Char) (opts : PlagiarismCheckOptions) :
    ((opts.threshold = none ∨ opts.threshold = some 0) →
      (buildRequest text opts).threshold = 7/10) ∧
    (opts.checkParaphrase ≠ some false →
      (buildRequest text opts).check_paraphrase = true) := by
  constructor
  · rintro (h | h) <;> simp [buildRequest, jorQ, h]
  · intro h
    simp only [buildRequest, Bool.not_eq_eq_eq_not, Bool.not_true,
      beq_eq_false_iff_ne, ne_eq]
    exact h

/-- C9 witness at options with a zero threshold and checkParaphrase
true. -/
theorem C9_witness :
    (buildRequest [] optsZeroThreshold).threshold = 7/10 ∧
    (buildRequest [] optsZeroThreshold).check_paraphrase = true :=
  ⟨(C9_theorem [] optsZeroThreshold).1 (Or.inr rfl),
    (C9_theorem [] optsZeroThreshold).2 (by decide)⟩

/-- Splitting a text on separator runs always yields at least one field,
whatever the text, the flag and the accumulator. -/
theorem splitRunsGo_length_pos (p : Char → Bool) :
    ∀ (t : List Char) (b : Bool) (acc : List Char),
      0 < (splitRunsGo p b t acc).length := by
  intro t
  induction t with
  | nil => intro b acc; simp [splitRunsGo]
  | cons c cs ih =>
    intro b acc
    by_cases hc : p c = true <;> cases b <;>
      simp [splitRunsGo, hc] <;> exact ih _ _

/-- C10: the reported word count is always at least 1; a whitespace-only
text trims to the empty list, which still splits into one empty field,
so the word count is 1, not 0. -/
theorem C10_theorem :
    (∀ text : List Char, 1 ≤ jsWordCount text) ∧ jsWordCount [' ', '\t'] = 1 := by
  constructor
  · intro text
    exact splitRunsGo_length_pos isWs (trim text) false []
  · decide

/-- Every character of a collapsed text is a space introduced by the
collapsing or a character of the original text. -/
theorem mem_collapseGo {c : Char} : ∀ (t : List Char) (b : Bool),
    c ∈ collapseGo b t → c = ' ' ∨ c ∈ t := by
  intro t
  induction t with
  | nil => intro b h; simp [collapseGo] at h
  | cons a cs ih =>
    intro b h
    by_cases ha : isWs a = true
    · cases b with
      | true =>
        simp only [collapseGo, ha, if_true] at h
        rcases ih true h with h1 | h1
        · exact Or.inl h1
        · exact Or.inr (List.mem_cons_of_mem a h1)
      | false =>
        simp only [collapseGo, ha, if_true] at h
        rcases List.mem_cons.mp h with h1 | h1
        · exact Or.inl h1
        · rcases ih true h1 with h2 | h2
          · exact Or.inl h2
          · exact Or.inr (List.mem_cons_of_mem a h2)
    · simp only [collapseGo, ha, if_false] at h
      rcases List.mem_cons.mp h with h1 | h1
      · exact Or.inr (h1 ▸ List.mem_cons_self a cs)
      · rcases ih false h1 with h2 | h2
        · exact Or.inl h2
        · exact Or.inr (List.mem_cons_of_mem a h2)

/-- The output of the whitespace collapsing worker is collapsed, and when
the flag says a run is in progress the first emitted character is not
whitespace. -/
theorem collapseGo_collapsed : ∀ (t : List Char),
    (∀ b, Collapsed (collapseGo b t)) ∧
      (∀ h, (collapseGo true t).head? = some h → isWs h = false) := by
  intro t
  induction t with
  | nil =>
    refine ⟨fun b => ⟨by simp [collapseGo], by simp [collapseGo]⟩, ?_⟩
    intro h hh
    simp [collapseGo] at hh
  | cons a cs ih =>
    obtain ⟨ihc, ihh⟩ := ih
    by_cases ha : isWs a = true
    · have hstep0 : collapseGo true (a :: cs) = collapseGo true cs := by
        simp [collapseGo, ha]
      have hstep1 : collapseGo false (a :: cs) = ' ' :: collapseGo true cs := by
        simp [collapseGo, ha]
      constructor
      · intro b
        cases b with
        | true => rw [hstep0]; exact ihc true
        | false =>
          rw [hstep1]
          have hc := ihc true
          refine ⟨?_, ?_⟩
          · intro c hcm hw
            rcases List.mem_cons.mp hcm with h1 | h1
            · exact h1
            · exact hc.1 c h1 hw
          · rw [List.chain'_cons']
            exact ⟨fun y hy => Or.inr (ihh y (Option.mem_def.mp hy)), hc.2⟩
      · intro h hh
        rw [hstep0] at hh
        exact ihh h hh
    · have hstep : ∀ b, collapseGo b (a :: cs) = a :: collapseGo false cs := by
        intro b
        simp [collapseGo, ha]
      constructor
      · intro b
        rw [hstep b]
        have hc := ihc false
        refine ⟨?_, ?_⟩
        · intro c hcm hw
          rcases List.mem_cons.mp hcm with h1 | h1
          · subst h1; exact absurd hw (by simpa using ha)
          · exact hc.1 c h1 hw
        · rw [List.chain'_cons']
          exact ⟨fun y hy => Or.inl (by simpa using ha), hc.2⟩
      · intro h hh
        rw [hstep true] at hh
        simp only [List.head?_cons, Option.some.injEq] at hh
        subst hh
        simpa using ha

/-- When the next character is not whitespace the flag value does not
matter to the collapsing worker. -/
theorem collapseGo_true_eq_false (t : List Char)
    (h : ∀ x, t.head? = some x → isWs x = false) :
    collapseGo true t = collapseGo false t := by
  cases t with
  | nil => rfl
  | cons a cs =>
    have ha := h a rfl
    simp [collapseGo, ha]

/-- A collapsed text is a fixed point of whitespace collapsing. -/
theorem collapseGo_false_of_collapsed : ∀ (t : List Char), Collapsed t →
    collapseGo false t = t := by
  intro t
  induction t with
  | nil => intro h; rfl
  | cons a cs ih =>
    intro h
    obtain ⟨hmem, hch⟩ := h
    rw [List.chain'_cons'] at hch
    obtain ⟨hhd, htl⟩ := hch
    have hcs : Collapsed cs :=
      ⟨fun c hc hw => hmem c (List.mem_cons_of_mem a hc) hw, htl⟩
    by_cases ha : isWs a = true
    · have haeq : a = ' ' := hmem a (List.mem_cons_self a cs) ha
      have hhead : ∀ x, cs.head? = some x → isWs x = false := by
        intro x hx
        rcases hhd x (Option.mem_def.mpr hx) with h1 | h1
        · exact absurd ha (by simp [h1])
        · exact h1
      have hu : collapseGo false (a :: cs) = ' ' :: collapseGo true cs := by
        simp [collapseGo, ha]
      rw [hu, collapseGo_true_eq_false cs hhead, ih hcs, haeq]
    · have hu : collapseGo false (a :: cs) = a :: collapseGo false cs := by
        simp [collapseGo, ha]
      rw [hu, ih hcs]

/-- The head of a dropWhile result does not satisfy the dropped
property. -/
theorem head_dropWhile (p : Char → Bool) : ∀ (t : List Char) (h : Char),
    (t.dropWhile p).head? = some h → p h = false := by
  intro t
  induction t with
  | nil => intro h hh; simp [List.dropWhile] at hh
  | cons a cs ih =>
    intro h hh
    cases ha : p a with
    | true =>
      rw [List.dropWhile_cons] at hh
      simp only [ha, if_true] at hh
      exact ih h hh
    | false =>
      rw [List.dropWhile_cons_of_neg (by simp [ha])] at hh
      simp only [List.head?_cons, Option.some.injEq] at hh
      subst hh
      exact ha

/-- dropWhile is idempotent. -/
theorem dropWhile_idem (p : Char → Bool) (t : List Char) :
    (t.dropWhile p).dropWhile p = t.dropWhile p := by
  cases h : t.dropWhile p with
  | nil => rfl
  | cons c cs =>
    have hc : p c = false := head_dropWhile p t c (by rw [h]; rfl)
    simp [List.dropWhile_cons, hc]

/-- Appending one character that does not satisfy the property commutes
with dropWhile. -/
theorem dropWhile_append_single (p : Char → Bool) (c : Char)
    (hc : p c = false) : ∀ (l : List Char),
    (l ++ [c]).dropWhile p = l.dropWhile p ++ [c] := by
  intro l
  induction l with
  | nil => simp [List.dropWhile_cons, hc]
  | cons a ls ih =>
    by_cases ha : p a = true <;>
      simp [List.dropWhile_cons, ha, ih]

/-- Trimming from the end keeps a non-whitespace first character in
place. -/
theorem trimEnd_head (c : Char) (cs : List Char) (hc : isWs c = false) :
    (trimEnd (c :: cs)).head? = some c := by
  unfold trimEnd
  rw [List.reverse_cons, dropWhile_append_single isWs c hc, List.reverse_append]
  rfl

/-- Trimming from the end is idempotent. -/
theorem trimEnd_idem (t : List Char) : trimEnd (trimEnd t) = trimEnd t := by
  unfold trimEnd
  rw [List.reverse_reverse, dropWhile_idem]

/-- String trimming is idempotent. -/
theorem trim_idem (t : List Char) : trim (trim t) = trim t := by
  show trimEnd (trimStart (trimEnd (trimStart t))) = trimEnd (trimStart t)
  cases h : trimStart t with
  | nil => rfl
  | cons c cs =>
    have hc : isWs c = false := head_dropWhile isWs t c (by
      rw [show List.dropWhile isWs t = c :: cs from h]; rfl)
    have hh := trimEnd_head c cs hc
    cases he : trimEnd (c :: cs) with
    | nil => rw [he] at hh; simp at hh
    | cons d ds =>
      rw [he] at hh
      have hd : d = c := by simpa using hh
      have hds : isWs d = false := hd ▸ hc
      have hts : trimStart (d :: ds) = d :: ds := by
        simp [trimStart, List.dropWhile_cons, hds]
      rw [hts, ← he, trimEnd_idem]

/-- A chain relation survives dropWhile. -/
theorem chain'_dropWhile {R : Char → Char → Prop} (p : Char → Bool) :
    ∀ (t : List Char), List.Chain' R t → List.Chain' R (t.dropWhile p) := by
  intro t
  induction t with
  | nil => intro h; exact h
  | cons a cs ih =>
    intro h
    by_cases ha : p a = true
    · rw [List.dropWhile_cons]
      simp only [ha, if_true]
      exact ih h.tail
    · rw [List.dropWhile_cons]
      simp only [ha, if_false]
      exact h

/-- Membership survives dropWhile backwards. -/
theorem mem_dropWhile {c : Char} (p : Char → Bool) :
    ∀ (t : List Char), c ∈ t.dropWhile p → c ∈ t := by
  intro t
  induction t with
  | nil => intro h; exact h
  | cons a cs ih =>
    intro h
    by_cases ha : p a = true
    · rw [List.dropWhile_cons] at h
      simp only [ha, if_true] at h
      exact List.mem_cons_of_mem a (ih h)
    · rw [List.dropWhile_cons] at h
      simp only [ha, if_false] at h
      exact h

/-- A character of the trimmed text is a character of the text. -/
theorem mem_trim {c : Char} (t : List Char) (h : c ∈ trim t) : c ∈ t := by
  unfold trim trimEnd trimStart at h
  rw [List.mem_reverse] at h
  have h1 := mem_dropWhile isWs _ h
  rw [List.mem_reverse] at h1
  exact mem_dropWhile isWs t h1

/-- Trimming preserves the collapsed invariant. -/
theorem collapsed_trim (t : List Char) (h : Collapsed t) :
    Collapsed (trim t) := by
  refine ⟨fun c hc hw => h.1 c (mem_trim t hc) hw, ?_⟩
  show List.Chain' wsOk (trimEnd (trimStart t))
  unfold trimEnd
  rw [List.chain'_reverse]
  refine chain'_dropWhile isWs _ ?_
  rw [List.chain'_reverse]
  show List.Chain' wsOk (trimStart t)
  exact chain'_dropWhile isWs t h.2

/-- C5 counterexample: on the five-character text consisting of the letter
a, a space, a zero-width non-joiner, a space and the letter b, the first
pass leaves a double space (the joiner is removed only after whitespace
was collapsed), and a second pass collapses it, so normalization is not
idempotent.  Unicode NFC is the identity on every character involved
(ASCII letters, the space and U+200C are all NFC-inert and compose with
nothing), so instantiating the external normalization capability with the
identity reproduces the behavior of the code on this input exactly. -/
theorem C5_counterexample :
    preprocessBanglaText id
        (preprocessBanglaText id ['a', ' ', '‌', ' ', 'b']) ≠
      preprocessBanglaText id ['a', ' ', '‌', ' ', 'b'] := by decide

/-- C5 (amended): normalization is idempotent on every input that contains
no zero-width non-joiner and no zero-width joiner, for every NFC
realization that is idempotent, preserves the collapsed joiner-free shape
and keeps trimmed fixed points fixed.  On inputs with a zero-width joiner
or non-joiner adjacent to whitespace a single pass can leave a double
space behind, because the code removes joiners only after collapsing
whitespace, so full idempotence fails. -/
theorem C5_theorem (nfc : List Char → List Char)
    (hIdem : ∀ s, nfc (nfc s) = nfc s)
    (hClean : ∀ s, Clean s → Clean (nfc s))
    (hTrim : ∀ s, nfc s = s → nfc (trim s) = trim s)
    (x : List Char)
    (hx : ∀ c ∈ x, c ≠ '‌' ∧ c ≠ '‍') :
    preprocessBanglaText nfc (preprocessBanglaText nfc x) =
      preprocessBanglaText nfc x := by
  have hzchars : ∀ c ∈ collapseWs x, c ≠ '‌' ∧ c ≠ '‍' := by
    intro c hc
    rcases mem_collapseGo x false hc with h1 | h1
    · subst h1
      exact ⟨by decide, by decide⟩
    · exact hx c h1
  have hzn : removeZWNJ (collapseWs x) = collapseWs x :=
    List.filter_eq_self.mpr (fun c hc => by
      simpa using (hzchars c hc).1)
  have hzj : removeZWJ (collapseWs x) = collapseWs x :=
    List.filter_eq_self.mpr (fun c hc => by
      simpa using (hzchars c hc).2)
  have hzc : Collapsed (collapseWs x) := (collapseGo_collapsed x).1 false
  have hzfix : collapseWs (collapseWs x) = collapseWs x :=
    collapseGo_false_of_collapsed _ hzc
  have hzclean : Clean (collapseWs x) := ⟨hzfix, hzn, hzj⟩
  have hwclean : Clean (nfc (collapseWs x)) := hClean _ hzclean
  have hwfix : nfc (nfc (collapseWs x)) = nfc (collapseWs x) :=
    hIdem (collapseWs x)
  have hpx : preprocessBanglaText nfc x = trim (nfc (collapseWs x)) := by
    unfold preprocessBanglaText
    rw [hzn, hzj]
  have hwcol : Collapsed (nfc (collapseWs x)) := by
    have hcw := (collapseGo_collapsed (nfc (collapseWs x))).1 false
    have hfix : collapseGo false (nfc (collapseWs x)) = nfc (collapseWs x) :=
      hwclean.1
    rwa [hfix] at hcw
  have htw_col : Collapsed (trim (nfc (collapseWs x))) :=
    collapsed_trim _ hwcol
  have htw_cw : collapseWs (trim (nfc (collapseWs x))) =
      trim (nfc (collapseWs x)) :=
    collapseGo_false_of_collapsed _ htw_col
  have htw_n : removeZWNJ (trim (nfc (collapseWs x))) =
      trim (nfc (collapseWs x)) :=
    List.filter_eq_self.mpr (fun c hc =>
      List.filter_eq_self.mp hwclean.2.1 c (mem_trim _ hc))
  have htw_j : removeZWJ (trim (nfc (collapseWs x))) =
      trim (nfc (collapseWs x)) :=
    List.filter_eq_self.mpr (fun c hc =>
      List.filter_eq_self.mp hwclean.2.2 c (mem_trim _ hc))
  rw [hpx]
  unfold preprocessBanglaText
  rw [show collapseWs (trim (nfc (collapseWs x))) =
      trim (nfc (collapseWs x)) from htw_cw,
    htw_n, htw_j, hTrim _ hwfix, trim_idem]

/-- C5 witness: the amended idempotence applied to a concrete joiner-free
text, with the identity as the NFC realization. -/
theorem C5_witness :
    preprocessBanglaText id (preprocessBanglaText id ['a', ' ', 'b']) =
      preprocessBanglaText id ['a', ' ', 'b'] :=
  C5_theorem id (fun _ => rfl) (fun _ h => h) (fun _ _ => rfl)
    ['a', ' ', 'b'] (by decide)

/-- Splitting a text that contains no separator yields one field: the
accumulator followed by the whole text. -/
theorem splitRunsGo_no_sep (p : Char → Bool) :
    ∀ (t : List Char) (acc : List Char), (∀ c ∈ t, p c = false) →
      splitRunsGo p false t acc = [acc.reverse ++ t] := by
  intro t
  induction t with
  | nil => intro acc h; simp [splitRunsGo]
  | cons a cs ih =>
    intro acc h
    have ha : p a = false := h a (List.mem_cons_self a cs)
    have hstep : splitRunsGo p false (a :: cs) acc =
        splitRunsGo p false cs (a :: acc) := by
      simp [splitRunsGo, ha]
    rw [hstep, ih (a :: acc) (fun c hc => h c (List.mem_cons_of_mem a hc))]
    simp

/-- C7 counterexample: the empty text contains no sentence terminator,
yet extractSentences returns zero segments, not the one whole-text
segment the claim requires for every terminator-free input. -/
theorem C7_counterexample : (extractSentences []).length = 0 := by decide

/-- C7 (amended): for every input that contains no Bangla sentence
terminator and is nonempty after trimming, extractSentences returns
exactly one segment, the whole text trimmed; an input that trims to
empty yields zero segments; and every returned segment is nonempty after
trimming. -/
theorem C7_theorem :
    (∀ t : List Char, (∀ c ∈ t, isTerm c = false) → trim t ≠ [] →
      extractSentences t = [trim t]) ∧
    (∀ (t : List Char), ∀ s ∈ extractSentences t, trim s ≠ []) := by
  constructor
  · intro t hterm hne
    unfold extractSentences
    rw [splitRunsGo_no_sep isTerm t [] hterm]
    have hlen : 0 < (trim t).length := List.length_pos.mpr hne
    have hq : decide (0 < (trim t).length) = true := decide_eq_true hlen
    simp [List.filter_cons, hq]
  · intro t s hs
    unfold extractSentences at hs
    rcases List.mem_map.mp hs with ⟨s0, hs0, rfl⟩
    rcases List.mem_filter.mp hs0 with ⟨-, hpos⟩
    have hlen : 0 < (trim s0).length := by simpa using hpos
    rw [trim_idem]
    exact List.length_pos.mp hlen

/-- C7 witness: a one-letter text has no terminator, trims to itself and
yields exactly its own single nonempty segment. -/
theorem C7_witness :
    extractSentences ['a'] = [trim ['a']] ∧ trim ['a'] ≠ [] :=
  ⟨C7_theorem.1 ['a'] (by decide) (by decide),
    C7_theorem.2 ['a'] ['a'] (by decide)⟩

end Plag
